import Mathlib

/-!
# Verification of greedypacker's `BinManager`

A shallow embedding of `greedypacker/binmanager.py` (the bin-manager
orchestration layer).  The four placement-algorithm backends (shelf,
guillotine, maximal-rectangles, skyline) are external collaborators: the
manager only calls their query functions (`insert`, `check_fit`,
`item_fits_rect`, `item_fits_shelf`) and enumerates their free-space lists,
so each backend is modelled abstractly by exactly the observations the
manager uses.
-/

/-- An item to pack. The manager reads only `width` and `height`
(`item.width`, `item.height` in the source); the placement fields `x`, `y`,
`rotated` are written by the backends, which are external. -/
structure Item where
  width : Nat
  height : Nat
deriving Repr, DecidableEq

/-- The sort key of `BinManager.add_items`:
`key=lambda el: el.width*el.height`. -/
def sortKey (it : Item) : Nat := it.width * it.height

/-- Insert `x` into `l` for a stable descending sort on `sortKey`:
`x` passes over elements with strictly larger key and stops in front of the
first element whose key is `≤` its own, so among equal keys the earlier
element (`x`, coming from earlier in the input) stays first. -/
def insertDesc (x : Item) : List Item → List Item
  | [] => [x]
  | y :: ys => if sortKey x < sortKey y then y :: insertDesc x ys else x :: y :: ys

/-- Model of Python's `list.sort(key=lambda el: el.width*el.height,
reverse=True)`: a stable sort by descending `width*height`.  Python's sort
is guaranteed stable (equal keys keep their original relative order, also
with `reverse=True`); any stable descending sort computes the same list, so
this insertion sort is a faithful model of that call. -/
def sortDesc : List Item → List Item
  | [] => []
  | x :: xs => insertDesc x (sortDesc xs)

/-- Mutable state of a `BinManager` (`self.items`, `self.bins`,
`self.bin_count`), with the bin representation `σ` abstract: the manager
never inspects a bin beyond the backend calls. -/
structure MState (σ : Type) where
  items : List Item
  bins : List σ
  binCount : Nat

/-- Model of `BinManager.add_items`: append each item of the batch to `self.items`
in call order, then, if `self.sorting`, stably re-sort the whole queue by
descending area. -/
def addItems (sorting : Bool) (m : MState σ) (batch : List Item) : MState σ :=
  let appended := m.items ++ batch
  { m with items := if sorting then sortDesc appended else appended }

/-- Model of `BinManager.execute`: `for item in self.items: self.bin_sel_algo(item)`.
The selection policy `pol` reads and mutates `self.bins` only; the pending
queue is not consumed. -/
def execute (pol : List σ → Item → List σ) (m : MState σ) : MState σ :=
  { m with bins := m.items.foldl pol m.bins }

/-- Sequential once-per-item application of the policy, in queue order:
the reference form of the spec's "invoke the configured bin-selection
policy exactly once per pending item, with no re-ordering". -/
def applySeq (pol : List σ → Item → List σ) : List Item → List σ → List σ
  | [], bins => bins
  | it :: rest, bins => applySeq pol rest (pol bins it)

/-- Model of `BinManager.__init__`: empty queue, `self.bin_count = 0`, and one
initial bin produced by the factory. -/
def mkMState (initialBin : σ) : MState σ :=
  { items := [], bins := [initialBin], binCount := 0 }

/-- The caller-facing operations that mutate a manager after construction. -/
inductive MOp where
  | add (batch : List Item)
  | exec
deriving Repr

/-- Apply one caller operation to the manager state. -/
def applyOp (sorting : Bool) (pol : List σ → Item → List σ) (m : MState σ) :
    MOp → MState σ
  | MOp.add batch => addItems sorting m batch
  | MOp.exec => execute pol m

/-- Run a sequence of caller operations from a state. -/
def runOps (sorting : Bool) (pol : List σ → Item → List σ) (m : MState σ) :
    List MOp → MState σ
  | [] => m
  | op :: ops => runOps sorting pol (applyOp sorting pol m op) ops

-- ## Oversize guard of `_bin_best_fit` (lines 100-107)

/-- The feasibility flag `item_fits` computed at the top of
`BinManager._bin_best_fit` (source lines 100-105), written exactly as the
source has it: `item.width <= self.bin_width or item.height >=
self.bin_height`, or-ed, when `self.rotation` is set, with `item.height <=
self.bin_width or item.width >= self.bin_height`.  The error
`ValueError("Error! item too big for bin")` is raised precisely when this
flag is `false`. -/
def itemFitsGuard (binWidth binHeight : Nat) (rotation : Bool) (it : Item) : Bool :=
  (decide (it.width ≤ binWidth) || decide (it.height ≥ binHeight)) ||
    (rotation && (decide (it.height ≤ binWidth) || decide (it.width ≥ binHeight)))

/-- The claim's notion of fitting the bin in an allowed orientation:
the original orientation fits when both `item.width <= bin_width` and
`item.height <= bin_height`; the rotated orientation counts only when the
rotation flag is set. -/
def fitsAllowedOrientation (binWidth binHeight : Nat) (rotation : Bool) (it : Item) : Bool :=
  (decide (it.width ≤ binWidth) && decide (it.height ≤ binHeight)) ||
    (rotation && (decide (it.height ≤ binWidth) && decide (it.width ≤ binHeight)))

-- ## Configuration and the bin factory (`__init__`, `_bin_factory`)

/-- The configuration a `BinManager` is constructed with (immutable after
construction). -/
structure Config where
  binWidth : Nat
  binHeight : Nat
  packAlgo : String
  heuristic : String
  splitHeuristic : String
  sorting : Bool
  rotation : Bool
  rectangleMerge : Bool
  wastemap : Bool
deriving Repr, DecidableEq

/-- A freshly constructed bin, as determined by the constructor call the
factory makes: the variant tag together with the arguments the factory
passes to the backend constructor.  The backends are external, so a new
empty bin is fully described by this data. -/
inductive PackBin where
  | guillotine (w h : Nat) (rotation merge : Bool) (split : String)
  | shelf (w h : Nat) (rotation wastemap : Bool)
  | maximalRectangle (w h : Nat) (rotation : Bool)
  | skyline (w h : Nat) (rotation : Bool)
deriving Repr, DecidableEq

/-- Model of `BinManager._bin_factory` (lines 64-78): dispatch on
`self.algorithm` over the four recognized names, raising
`ValueError('Error: No such Algorithm')` for any other name. -/
def binFactory (cfg : Config) : Except String PackBin :=
  if cfg.packAlgo = "guillotine" then
    Except.ok (PackBin.guillotine cfg.binWidth cfg.binHeight cfg.rotation
      cfg.rectangleMerge cfg.splitHeuristic)
  else if cfg.packAlgo = "shelf" then
    Except.ok (PackBin.shelf cfg.binWidth cfg.binHeight cfg.rotation cfg.wastemap)
  else if cfg.packAlgo = "maximal_rectangle" then
    Except.ok (PackBin.maximalRectangle cfg.binWidth cfg.binHeight cfg.rotation)
  else if cfg.packAlgo = "skyline" then
    Except.ok (PackBin.skyline cfg.binWidth cfg.binHeight cfg.rotation)
  else
    Except.error "Error: No such Algorithm"

/-- Model of the tail of `BinManager.__init__` (lines 53-54): the factory
runs during construction to build the one initial bin, so a factory error
propagates out of the constructor. -/
def initManager (cfg : Config) : Except String (MState PackBin) :=
  match binFactory cfg with
  | Except.error e => Except.error e
  | Except.ok b => Except.ok (mkMState b)

-- ## Skyline branch of `_bin_best_fit` (lines 109-123)

/-- A skyline-variant bin, as the best-fit scorer observes it: the length
of its `skyline` segment list (the scan reads only the running index `i`
of `enumerate(binn.skyline)`) and the read-only backend query
`check_fit(width, height, segment_index)` returning `(fits, y)`. -/
structure SkylineBin where
  segCount : Nat
  checkFit : Nat → Nat → Nat → Bool × Nat

/-- Comparison `y < best_y` against the running accumulator; `none` stands
for the initial `best_y = float('inf')`, which every `y` beats. -/
def skyBetter (y : Nat) : Option (Nat × Nat) → Bool
  | none => true
  | some best => decide (y < best.2)

/-- One `if fits and y < best_y: best_y = y; best_bin = binn` update; the
candidate bin is recorded by its index `i`. -/
def skyUpd (i : Nat) (q : Bool × Nat) (acc : Option (Nat × Nat)) : Option (Nat × Nat) :=
  if q.1 && skyBetter q.2 acc then some (i, q.2) else acc

/-- The inner segment loop of the skyline branch (lines 113-121) for the
bin with index `i`: for every segment index, query `check_fit` with the
item's original dimensions and then with the swapped dimensions — the
source makes the swapped query unconditionally, with no test of
`self.rotation`. -/
def skyStep (it : Item) (i : Nat) (b : SkylineBin) (acc : Option (Nat × Nat)) :
    Option (Nat × Nat) :=
  (List.range b.segCount).foldl
    (fun acc j =>
      skyUpd i (b.checkFit it.height it.width j) (skyUpd i (b.checkFit it.width it.height j) acc))
    acc

/-- The outer bin loop (`for binn in self.bins`), carrying the bin index
as `enumerate` would. -/
def skylineBestAux (it : Item) (i : Nat) :
    List SkylineBin → Option (Nat × Nat) → Option (Nat × Nat)
  | [], acc => acc
  | b :: bs, acc => skylineBestAux it (i + 1) bs (skyStep it i b acc)

/-- The skyline branch's full scan: `some (i, y)` gives the index of the
selected bin (`best_bin`) and its winning top-`y` (`best_y`); `none` means
no feasible placement was reported, and the code falls through to opening
a new bin. -/
def skylineBest (bins : List SkylineBin) (it : Item) : Option (Nat × Nat) :=
  skylineBestAux it 0 bins none

/-- The feasible placements reported while scanning the bin with index
`i`, in query order: for each segment, the original orientation first,
then the swapped one; each entry is `(i, resulting top-y)`. -/
def binPlacements (it : Item) (i : Nat) (b : SkylineBin) : List (Nat × Nat) :=
  (List.range b.segCount).flatMap (fun j =>
    (if (b.checkFit it.width it.height j).1 then [(i, (b.checkFit it.width it.height j).2)] else []) ++
    (if (b.checkFit it.height it.width j).1 then [(i, (b.checkFit it.height it.width j).2)] else []))

/-- All feasible placements the scan considers, in scan order (bin-creation
order, then segment order, then orientation order). -/
def skylinePlacementsAux (it : Item) (i : Nat) : List SkylineBin → List (Nat × Nat)
  | [] => []
  | b :: bs => binPlacements it i b ++ skylinePlacementsAux it (i + 1) bs

/-- All feasible placements of the whole scan, starting at bin index 0. -/
def skylinePlacements (bins : List SkylineBin) (it : Item) : List (Nat × Nat) :=
  skylinePlacementsAux it 0 bins

/-- Generic left-to-right minimum scan: keeps the first entry whose second
component strictly improves on the best seen so far. -/
def scanMin (acc : Option (Nat × Nat)) : List (Nat × Nat) → Option (Nat × Nat)
  | [] => acc
  | p :: ps => scanMin (if skyBetter p.2 acc then some p else acc) ps

/-- The skyline segment loop as the claim words it: the swapped-dimension
`check_fit` query is made only when the rotation flag is set. -/
def skyStepSpec (rotation : Bool) (it : Item) (i : Nat) (b : SkylineBin)
    (acc : Option (Nat × Nat)) : Option (Nat × Nat) :=
  (List.range b.segCount).foldl
    (fun acc j =>
      let acc1 := skyUpd i (b.checkFit it.width it.height j) acc
      if rotation then skyUpd i (b.checkFit it.height it.width j) acc1 else acc1)
    acc

/-- Outer bin loop over the claim-worded segment loop. -/
def skylineBestSpecAux (rotation : Bool) (it : Item) (i : Nat) :
    List SkylineBin → Option (Nat × Nat) → Option (Nat × Nat)
  | [], acc => acc
  | b :: bs, acc => skylineBestSpecAux rotation it (i + 1) bs (skyStepSpec rotation it i b acc)

/-- The skyline scoring as the claim words it, gated on the rotation flag. -/
def skylineBestSpec (rotation : Bool) (bins : List SkylineBin) (it : Item) :
    Option (Nat × Nat) :=
  skylineBestSpecAux rotation it 0 bins none

-- ## Guillotine / maximal-rectangle branch of `_bin_best_fit` (lines 125-144)

/-- A free rectangle, as the scorer observes it: only its `area` attribute
is read. -/
structure FreeRect where
  area : Nat
deriving Repr, DecidableEq

/-- A guillotine- or maximal-rectangle-variant bin, as the scorer observes
it: its ordered `freerects` list and the read-only query
`item_fits_rect`. -/
structure GuillotineBin where
  freerects : List FreeRect
  itemFitsRect : Item → FreeRect → Bool

/-- Lines 129-133: `best_in_bin`, the first free rectangle (in the bin's
existing `freerects` order) that the item fits — the loop breaks on the
first hit. -/
def firstFitRect (b : GuillotineBin) (it : Item) : Option FreeRect :=
  b.freerects.find? (fun r => b.itemFitsRect it r)

/-- Lines 126-141: the scan that records `best_rect` (the globally
smallest per-bin candidate by area, first-seen kept on ties) and
`best_bin_index` (the index of the bin owning it), carrying the bin index
as `enumerate` would. -/
def gScanAux (it : Item) (i : Nat) :
    List GuillotineBin → Option FreeRect × Option Nat → Option FreeRect × Option Nat
  | [], acc => acc
  | b :: bs, acc =>
    gScanAux it (i + 1) bs
      (match firstFitRect b it with
       | none => acc
       | some r =>
         match acc.1 with
         | none => (some r, some i)
         | some br => if r.area < br.area then (some r, some i) else acc)

/-- The full scan starting from `best_rect = None`, `best_bin_index = None`. -/
def gBestScan (bins : List GuillotineBin) (it : Item) : Option FreeRect × Option Nat :=
  gScanAux it 0 bins (none, none)

/-- Lines 143-144: when a candidate rectangle was found, the source runs
`return self.bins[i].insert(item, self.heuristic)` where `i` is the loop
variable left over from `enumerate(self.bins)` — i.e. the index of the
last bin scanned (`len(self.bins) - 1`), not the recorded
`best_bin_index`.  This returns the index of the bin that actually
receives the insertion. -/
def gSelect (bins : List GuillotineBin) (it : Item) : Option Nat :=
  match (gBestScan bins it).1 with
  | some _ => some (bins.length - 1)
  | none => none

-- ## Shelf branch of `_bin_best_fit` (lines 146-165)

/-- A shelf, as the scorer observes it: only its `area` attribute is read. -/
structure ShelfRec where
  area : Nat
deriving Repr, DecidableEq

/-- A shelf-variant bin, as the scorer observes it: its ordered `shelves`
list, the read-only query `item_fits_shelf`, and its geometry attributes
`x` (shelf-starting x-extent) and `available_height`. -/
structure ShelfBin where
  shelves : List ShelfRec
  itemFitsShelf : Item → ShelfRec → Bool
  x : Nat
  availableHeight : Nat

/-- Lines 150-159: the candidate `area` recorded for one shelf bin.  The
first shelf the item fits contributes its area; the new-shelf test —
which the source evaluates for both orientations unconditionally, with no
test of `self.rotation` — then overwrites it with
`binn.x * binn.available_height` when it succeeds. -/
def shelfBinArea (b : ShelfBin) (it : Item) : Option Nat :=
  let fromShelf := (b.shelves.find? (fun s => b.itemFitsShelf it s)).map ShelfRec.area
  if (it.width ≤ b.x ∧ it.height ≤ b.availableHeight) ∨
      (it.height ≤ b.x ∧ it.width ≤ b.availableHeight) then
    some (b.x * b.availableHeight)
  else
    fromShelf

/-- Line 161, `if area and area < best_area`: Python truthiness makes a
`None` or zero area lose; otherwise the area must beat the running best
(`inf` initially, represented by `none`). -/
def shelfBetter (a : Nat) : Option (Nat × Nat) → Bool
  | none => decide (a ≠ 0)
  | some best => decide (a ≠ 0) && decide (a < best.2)

/-- One iteration of the shelf bin loop: record `(i, area)` when the bin's
candidate area wins. -/
def shelfStep (it : Item) (i : Nat) (b : ShelfBin) (acc : Option (Nat × Nat)) :
    Option (Nat × Nat) :=
  match shelfBinArea b it with
  | none => acc
  | some a => if shelfBetter a acc then some (i, a) else acc

/-- The shelf bin loop (lines 149-163), carrying the bin index as
`enumerate` would. -/
def shelfSelectAux (it : Item) (i : Nat) :
    List ShelfBin → Option (Nat × Nat) → Option (Nat × Nat)
  | [], acc => acc
  | b :: bs, acc => shelfSelectAux it (i + 1) bs (shelfStep it i b acc)

/-- The shelf branch's full scan: `some (i, a)` gives the index of the
selected bin (`best_bin`) and its winning area (`best_area`); `none` means
no bin recorded a truthy candidate area. -/
def shelfSelect (bins : List ShelfBin) (it : Item) : Option (Nat × Nat) :=
  shelfSelectAux it 0 bins none

/-- The shelf bin candidate area as the claim words it: the
swapped-dimension new-shelf test is evaluated only when the rotation flag
is set. -/
def shelfBinAreaSpec (rotation : Bool) (b : ShelfBin) (it : Item) : Option Nat :=
  let fromShelf := (b.shelves.find? (fun s => b.itemFitsShelf it s)).map ShelfRec.area
  if (it.width ≤ b.x ∧ it.height ≤ b.availableHeight) ∨
      (rotation = true ∧ it.height ≤ b.x ∧ it.width ≤ b.availableHeight) then
    some (b.x * b.availableHeight)
  else
    fromShelf

/-- Shelf bin step over the claim-worded candidate area. -/
def shelfStepSpec (rotation : Bool) (it : Item) (i : Nat) (b : ShelfBin)
    (acc : Option (Nat × Nat)) : Option (Nat × Nat) :=
  match shelfBinAreaSpec rotation b it with
  | none => acc
  | some a => if shelfBetter a acc then some (i, a) else acc

/-- Shelf bin loop over the claim-worded candidate area. -/
def shelfSelectSpecAux (rotation : Bool) (it : Item) (i : Nat) :
    List ShelfBin → Option (Nat × Nat) → Option (Nat × Nat)
  | [], acc => acc
  | b :: bs, acc => shelfSelectSpecAux rotation it (i + 1) bs (shelfStepSpec rotation it i b acc)

/-- The shelf scoring as the claim words it, gated on the rotation flag. -/
def shelfSelectSpec (rotation : Bool) (bins : List ShelfBin) (it : Item) :
    Option (Nat × Nat) :=
  shelfSelectSpecAux rotation it 0 bins none

-- ## `_bin_best_fit` for the shelf algorithm, end to end (lines 95-169)

/-- Model of `BinManager._bin_best_fit` when `self.algorithm == 'shelf'`:
the oversize guard raises before any placement attempt; otherwise the
shelf scoring selects a bin and the insertion is delegated to that bin's
backend (`ins`, external), falling through to a factory-fresh bin
(`newB`) when no bin was selected.  The scoring always returns an index
inside `bins`, so the `none` fallback of the lookup is unreachable. -/
def shelfBestFitE (binWidth binHeight : Nat) (rotation : Bool) (heuristic : String)
    (ins : ShelfBin → Item → String → Bool × ShelfBin) (newB : ShelfBin)
    (bins : List ShelfBin) (it : Item) : Except String (List ShelfBin) :=
  if itemFitsGuard binWidth binHeight rotation it = false then
    Except.error "Error! item too big for bin"
  else
    match shelfSelect bins it with
    | some ia =>
      match bins.get? ia.1 with
      | some b => Except.ok (bins.set ia.1 (ins b it heuristic).2)
      | none => Except.ok bins
    | none => Except.ok (bins ++ [(ins newB it heuristic).2])

/-- Model of `BinManager.execute` under the best-fit policy with the shelf
algorithm: a raised oversize error aborts the loop and propagates to the
caller. -/
def executeShelfE (binWidth binHeight : Nat) (rotation : Bool) (heuristic : String)
    (ins : ShelfBin → Item → String → Bool × ShelfBin) (newB : ShelfBin)
    (bins : List ShelfBin) : List Item → Except String (List ShelfBin)
  | [] => Except.ok bins
  | it :: rest =>
    match shelfBestFitE binWidth binHeight rotation heuristic ins newB bins it with
    | Except.error e => Except.error e
    | Except.ok bins' => executeShelfE binWidth binHeight rotation heuristic ins newB bins' rest

-- ## `_bin_first_fit` (lines 81-92)

/-- The backend contract the first-fit policy uses: a stateful `insert`
(success flag and updated bin state) shared by all bins of one manager,
and the state of a factory-fresh bin. -/
structure Backend (σ : Type) where
  insert : σ → Item → String → Bool × σ
  newBin : σ

/-- The loop of `_bin_first_fit` (lines 85-89): try each open bin in
creation order, stopping at the first successful insertion; every
attempted bin keeps the state its `insert` call left it in. -/
def binFirstFitLoop (B : Backend σ) (heuristic : String) (it : Item) :
    List σ → Bool × List σ
  | [] => (false, [])
  | b :: bs =>
    let r := B.insert b it heuristic
    if r.1 then (true, r.2 :: bs)
    else
      let rest := binFirstFitLoop B heuristic it bs
      (rest.1, r.2 :: rest.2)

/-- Model of `BinManager._bin_first_fit` (lines 81-92): on overall failure,
append exactly one factory-fresh bin and insert the item into it. -/
def binFirstFit (B : Backend σ) (heuristic : String) (it : Item) (bins : List σ) :
    List σ :=
  let r := binFirstFitLoop B heuristic it bins
  if r.1 then r.2
  else r.2 ++ [(B.insert B.newBin it heuristic).2]

/-- Whether a bin in state `b` accepts the item (its `insert` reports
success). -/
def acceptsItem (B : Backend σ) (heuristic : String) (it : Item) (b : σ) : Bool :=
  (B.insert b it heuristic).1

/-- The bin state an `insert` attempt leaves behind (success or not). -/
def attemptState (B : Backend σ) (heuristic : String) (it : Item) (b : σ) : σ :=
  (B.insert b it heuristic).2

-- ## Lemmas about the stable sort

theorem filter_key_insertDesc (k : Nat) (x : Item) (l : List Item) :
    (insertDesc x l).filter (fun it => sortKey it == k) =
      if sortKey x == k then x :: l.filter (fun it => sortKey it == k)
      else l.filter (fun it => sortKey it == k) := by
  induction l with
  | nil =>
    by_cases hx : sortKey x == k <;> simp [insertDesc, List.filter, hx]
  | cons y ys ih =>
    by_cases hlt : sortKey x < sortKey y
    · by_cases hx : sortKey x = k
      · have hy : (sortKey y == k) = false := by
          subst hx
          simp [Nat.ne_of_gt hlt]
        simp only [insertDesc, if_pos hlt]
        simp [List.filter, hy, ih, hx]
      · have hx' : (sortKey x == k) = false := by simp [hx]
        simp [insertDesc, if_pos hlt, List.filter, ih, hx']
    · simp only [insertDesc, if_neg hlt]
      by_cases hx : sortKey x == k
      · simp [List.filter, hx]
      · simp only [Bool.not_eq_true] at hx
        simp [List.filter, hx]

theorem sortDesc_filter_key (k : Nat) (l : List Item) :
    (sortDesc l).filter (fun it => sortKey it == k) =
      l.filter (fun it => sortKey it == k) := by
  induction l with
  | nil => rfl
  | cons x xs ih =>
    by_cases hx : (sortKey x == k) = true
    · simp [sortDesc, filter_key_insertDesc, ih, List.filter, hx]
    · simp only [Bool.not_eq_true] at hx
      simp [sortDesc, filter_key_insertDesc, ih, List.filter, hx]

theorem mem_insertDesc {z x : Item} {l : List Item} :
    z ∈ insertDesc x l ↔ z = x ∨ z ∈ l := by
  induction l with
  | nil => simp [insertDesc]
  | cons y ys ih =>
    by_cases hlt : sortKey x < sortKey y
    · simp only [insertDesc, if_pos hlt, List.mem_cons, ih]
      tauto
    · simp [insertDesc, if_neg hlt]

theorem pairwise_insertDesc {x : Item} {l : List Item}
    (h : l.Pairwise (fun a b => sortKey b ≤ sortKey a)) :
    (insertDesc x l).Pairwise (fun a b => sortKey b ≤ sortKey a) := by
  induction l with
  | nil => simp [insertDesc]
  | cons y ys ih =>
    rcases List.pairwise_cons.mp h with ⟨hy, hys⟩
    by_cases hlt : sortKey x < sortKey y
    · simp only [insertDesc, if_pos hlt]
      refine List.pairwise_cons.mpr ⟨?_, ih hys⟩
      intro z hz
      rcases mem_insertDesc.mp hz with rfl | hz'
      · exact Nat.le_of_lt hlt
      · exact hy z hz'
    · simp only [insertDesc, if_neg hlt]
      refine List.pairwise_cons.mpr ⟨?_, h⟩
      intro z hz
      rcases List.mem_cons.mp hz with rfl | hz'
      · exact Nat.le_of_not_lt hlt
      · exact Nat.le_trans (hy z hz') (Nat.le_of_not_lt hlt)

theorem sortDesc_pairwise (l : List Item) :
    (sortDesc l).Pairwise (fun a b => sortKey b ≤ sortKey a) := by
  induction l with
  | nil => simp [sortDesc]
  | cons x xs ih => exact pairwise_insertDesc ih

-- ## Lemmas about the left-to-right minimum scan (skyline scoring)

theorem scanMin_append (acc : Option (Nat × Nat)) (L1 L2 : List (Nat × Nat)) :
    scanMin acc (L1 ++ L2) = scanMin (scanMin acc L1) L2 := by
  induction L1 generalizing acc with
  | nil => rfl
  | cons p ps ih => simp [scanMin, ih]

theorem skyUpd_eq_scanMin (i : Nat) (q : Bool × Nat) (acc : Option (Nat × Nat)) :
    skyUpd i q acc = scanMin acc (if q.1 then [(i, q.2)] else []) := by
  cases hq : q.1 <;> simp [skyUpd, scanMin, hq]

theorem skyStep_eq_scanMin (it : Item) (i : Nat) (b : SkylineBin) (acc : Option (Nat × Nat)) :
    skyStep it i b acc = scanMin acc (binPlacements it i b) := by
  unfold skyStep binPlacements
  induction List.range b.segCount generalizing acc with
  | nil => rfl
  | cons j js ih =>
    rw [List.foldl_cons, List.flatMap_cons, scanMin_append, scanMin_append, ih,
      ← skyUpd_eq_scanMin, ← skyUpd_eq_scanMin]

theorem skylineBestAux_eq_scanMin (it : Item) :
    ∀ (bins : List SkylineBin) (i : Nat) (acc : Option (Nat × Nat)),
      skylineBestAux it i bins acc = scanMin acc (skylinePlacementsAux it i bins) := by
  intro bins
  induction bins with
  | nil => intro i acc; rfl
  | cons b bs ih =>
    intro i acc
    rw [skylineBestAux, skylinePlacementsAux, scanMin_append, ih, skyStep_eq_scanMin]

theorem skylineBest_eq_scanMin (bins : List SkylineBin) (it : Item) :
    skylineBest bins it = scanMin none (skylinePlacements bins it) :=
  skylineBestAux_eq_scanMin it bins 0 none

theorem scanMin_some_le {p : Nat × Nat} :
    ∀ {L : List (Nat × Nat)} {a : Nat × Nat}, scanMin (some a) L = some p → p.2 ≤ a.2 := by
  intro L
  induction L with
  | nil =>
    intro a h
    cases h
    exact Nat.le_refl _
  | cons x xs ih =>
    intro a h
    rw [scanMin] at h
    by_cases hb : skyBetter x.2 (some a) = true
    · rw [if_pos hb] at h
      have hxa : x.2 < a.2 := by simpa [skyBetter] using hb
      exact Nat.le_trans (ih h) (Nat.le_of_lt hxa)
    · rw [if_neg hb] at h
      exact ih h

theorem scanMin_le_all {p : Nat × Nat} :
    ∀ {L : List (Nat × Nat)} {acc : Option (Nat × Nat)},
      scanMin acc L = some p → ∀ q ∈ L, p.2 ≤ q.2 := by
  intro L
  induction L with
  | nil => intro acc _ q hq; cases hq
  | cons x xs ih =>
    intro acc h q hq
    rw [scanMin] at h
    rcases List.mem_cons.mp hq with rfl | hq'
    · by_cases hb : skyBetter q.2 acc = true
      · rw [if_pos hb] at h
        exact scanMin_some_le h
      · rw [if_neg hb] at h
        cases acc with
        | none => simp [skyBetter] at hb
        | some a =>
          have haq : a.2 ≤ q.2 := by
            have := hb
            simp only [skyBetter, decide_eq_true_eq] at this
            omega
          exact Nat.le_trans (scanMin_some_le h) haq
    · exact ih h q hq'

theorem scanMin_first {p : Nat × Nat} :
    ∀ {L : List (Nat × Nat)} {a : Nat × Nat}, scanMin (some a) L = some p →
      p = a ∨ ∃ pre post, L = pre ++ p :: post ∧ p.2 < a.2 ∧ ∀ q ∈ pre, p.2 < q.2 := by
  intro L
  induction L with
  | nil =>
    intro a h
    cases h
    exact Or.inl rfl
  | cons x xs ih =>
    intro a h
    rw [scanMin] at h
    by_cases hb : skyBetter x.2 (some a) = true
    · rw [if_pos hb] at h
      have hxa : x.2 < a.2 := by simpa [skyBetter] using hb
      rcases ih h with rfl | ⟨pre, post, hL, hlt, hpre⟩
      · exact Or.inr ⟨[], xs, rfl, hxa, by intro q hq; cases hq⟩
      · refine Or.inr ⟨x :: pre, post, by rw [hL]; rfl, Nat.lt_trans hlt hxa, ?_⟩
        intro q hq
        rcases List.mem_cons.mp hq with rfl | hq'
        · exact hlt
        · exact hpre q hq'
    · rw [if_neg hb] at h
      have hax : a.2 ≤ x.2 := by
        have := hb
        simp only [skyBetter, decide_eq_true_eq] at this
        omega
      rcases ih h with rfl | ⟨pre, post, hL, hlt, hpre⟩
      · exact Or.inl rfl
      · refine Or.inr ⟨x :: pre, post, by rw [hL]; rfl, hlt, ?_⟩
        intro q hq
        rcases List.mem_cons.mp hq with rfl | hq'
        · exact Nat.lt_of_lt_of_le hlt hax
        · exact hpre q hq'

theorem scanMin_none_first {p : Nat × Nat} :
    ∀ {L : List (Nat × Nat)}, scanMin none L = some p →
      ∃ pre post, L = pre ++ p :: post ∧ ∀ q ∈ pre, p.2 < q.2 := by
  intro L
  cases L with
  | nil => intro h; cases h
  | cons x xs =>
    intro h
    rw [scanMin, if_pos (by simp [skyBetter])] at h
    rcases scanMin_first h with rfl | ⟨pre, post, hL, hlt, hpre⟩
    · exact ⟨[], xs, rfl, by intro q hq; cases hq⟩
    · refine ⟨x :: pre, post, by rw [hL]; rfl, ?_⟩
      intro q hq
      rcases List.mem_cons.mp hq with rfl | hq'
      · exact hlt
      · exact hpre q hq'

-- ## The scoring branches do not consult the rotation flag

theorem skyStepSpec_true (it : Item) (i : Nat) (b : SkylineBin) (acc : Option (Nat × Nat)) :
    skyStepSpec true it i b acc = skyStep it i b acc := rfl

theorem skylineBestSpecAux_true (it : Item) :
    ∀ (bins : List SkylineBin) (i : Nat) (acc : Option (Nat × Nat)),
      skylineBestSpecAux true it i bins acc = skylineBestAux it i bins acc := by
  intro bins
  induction bins with
  | nil => intro i acc; rfl
  | cons b bs ih =>
    intro i acc
    rw [skylineBestSpecAux, skylineBestAux, skyStepSpec_true, ih]

theorem shelfBinAreaSpec_true (b : ShelfBin) (it : Item) :
    shelfBinAreaSpec true b it = shelfBinArea b it := by
  simp [shelfBinAreaSpec, shelfBinArea]

theorem shelfStepSpec_true (it : Item) (i : Nat) (b : ShelfBin) (acc : Option (Nat × Nat)) :
    shelfStepSpec true it i b acc = shelfStep it i b acc := by
  rw [shelfStepSpec, shelfStep, shelfBinAreaSpec_true]

theorem shelfSelectSpecAux_true (it : Item) :
    ∀ (bins : List ShelfBin) (i : Nat) (acc : Option (Nat × Nat)),
      shelfSelectSpecAux true it i bins acc = shelfSelectAux it i bins acc := by
  intro bins
  induction bins with
  | nil => intro i acc; rfl
  | cons b bs ih =>
    intro i acc
    rw [shelfSelectSpecAux, shelfSelectAux, shelfStepSpec_true, ih]

-- ## First-fit loop characterization

/-- The index of the first bin, in creation order, whose backend reports a
successful insertion of the item — the bin the spec says first-fit places
the item into. -/
def firstAcceptIdx (B : Backend σ) (heuristic : String) (it : Item) : List σ → Option Nat
  | [] => none
  | b :: bs =>
    if acceptsItem B heuristic it b then some 0
    else (firstAcceptIdx B heuristic it bs).map (· + 1)

theorem binFirstFitLoop_eq {σ : Type} (B : Backend σ) (heuristic : String) (it : Item) :
    ∀ bins : List σ,
      binFirstFitLoop B heuristic it bins =
        match firstAcceptIdx B heuristic it bins with
        | some j =>
          (true, (bins.take (j + 1)).map (attemptState B heuristic it) ++ bins.drop (j + 1))
        | none => (false, bins.map (attemptState B heuristic it)) := by
  intro bins
  induction bins with
  | nil => rfl
  | cons b bs ih =>
    by_cases hb : acceptsItem B heuristic it b
    · have hb' : (B.insert b it heuristic).1 = true := hb
      simp only [binFirstFitLoop, firstAcceptIdx, hb, if_pos, hb', if_true]
      rfl
    · have hb' : (B.insert b it heuristic).1 = false := by
        simpa [acceptsItem] using hb
      simp only [binFirstFitLoop, firstAcceptIdx, hb, if_false, hb', ih]
      cases hidx : firstAcceptIdx B heuristic it bs with
      | none => simp [attemptState]
      | some j => simp [attemptState, List.take_succ_cons, List.drop_succ_cons]

-- ## Example configurations used by witnesses

/-- A manager configuration with the shelf algorithm (bin 4×4, rotation
disabled). -/
def cfgShelfEx : Config :=
  ⟨4, 4, "shelf", "default", "default", true, false, true, true⟩

/-- A manager configuration whose algorithm name is not one of the four
recognized variants. -/
def cfgBadEx : Config :=
  ⟨4, 4, "bogus", "default", "default", true, false, true, true⟩

-- ## Claim theorems

/-- C1: the claim states that the oversize error is raised if and only if
the item fits the bin's fixed dimensions in neither allowed orientation.
The code's guard (lines 100-105) instead or-s the two dimension bounds and
reverses one comparison (`item.height >= self.bin_height`), so for the
item 5×10 in a 4×4 bin with rotation disabled — which fits in no allowed
orientation, so the claim demands the error — the guard evaluates to
`true` and the code proceeds to placement without raising. -/
theorem oversize_guard_mismatch :
    itemFitsGuard 4 4 false ⟨5, 10⟩ = true ∧
    fitsAllowedOrientation 4 4 false ⟨5, 10⟩ = false := by
  decide

/-- C2: with two bins that both have a candidate free rectangle, bin 0
owning the globally smallest one (area 1 versus area 5), the scan records
`best_bin_index = 0`, but the insertion of `self.bins[i].insert(...)`
(line 144) targets the stale loop index — the last-scanned bin, index 1 —
contradicting the claim that the insertion is delegated to the bin owning
the globally smallest candidate rectangle. -/
theorem guillotine_stale_index :
    (gBestScan [⟨[⟨1⟩], fun _ _ => true⟩, ⟨[⟨5⟩], fun _ _ => true⟩] ⟨1, 1⟩).2 = some 0 ∧
    gSelect [⟨[⟨1⟩], fun _ _ => true⟩, ⟨[⟨5⟩], fun _ _ => true⟩] ⟨1, 1⟩ = some 1 := by
  exact ⟨rfl, rfl⟩

/-- C3 counterexample: with the rotation flag disabled, the claim says the
skyline branch queries `check_fit` only with the item's original
dimensions and the shelf branch's new-shelf option requires the original
dimensions to fit.  The code evaluates the swapped-dimension tests
unconditionally: a skyline backend that fits only the swapped query makes
the code select a bin where the claim's rotation-gated scan finds none,
and a 3×2 shelf extent accepts item 2×3 through the swapped test alone. -/
theorem rotation_gating_counterexample :
    skylineBest [⟨1, fun w _ _ => (decide (w = 3), 0)⟩] ⟨2, 3⟩ = some (0, 0) ∧
    skylineBestSpec false [⟨1, fun w _ _ => (decide (w = 3), 0)⟩] ⟨2, 3⟩ = none ∧
    shelfSelect [⟨[], fun _ _ => false, 3, 2⟩] ⟨2, 3⟩ = some (0, 6) ∧
    shelfSelectSpec false [⟨[], fun _ _ => false, 3, 2⟩] ⟨2, 3⟩ = none := by
  exact ⟨rfl, rfl, rfl, rfl⟩

/-- C3 amended: best-fit scoring considers the rotated orientation
regardless of the rotation flag — for every bin list and item, the code's
skyline and shelf scoring coincide with the claim-worded scoring with the
rotation flag treated as enabled. -/
theorem rotation_flag_not_consulted (bins : List SkylineBin) (sbins : List ShelfBin)
    (it : Item) :
    skylineBest bins it = skylineBestSpec true bins it ∧
    shelfSelect sbins it = shelfSelectSpec true sbins it := by
  constructor
  · rw [skylineBest, skylineBestSpec, skylineBestSpecAux_true]
  · rw [shelfSelect, shelfSelectSpec, shelfSelectSpecAux_true]

/-- C4: under best-fit with the skyline algorithm, when the scan selects a
bin (`skylineBest = some (i, y)`), the pair `(i, y)` is one of the
feasible placements reported by the `check_fit` queries, its top-`y` is
minimal among all of them, and it is the first-seen placement achieving
that minimum (every placement queried before it has a strictly larger
top-`y`); the insertion is then delegated to bin `i` (`best_bin`). -/
theorem skyline_best_fit_minimal (bins : List SkylineBin) (it : Item) (p : Nat × Nat)
    (h : skylineBest bins it = some p) :
    p ∈ skylinePlacements bins it ∧
    (∀ q ∈ skylinePlacements bins it, p.2 ≤ q.2) ∧
    ∃ pre post, skylinePlacements bins it = pre ++ p :: post ∧ ∀ q ∈ pre, p.2 < q.2 := by
  have h' : scanMin none (skylinePlacements bins it) = some p := by
    rw [← skylineBest_eq_scanMin]
    exact h
  obtain ⟨pre, post, hL, hpre⟩ := scanMin_none_first h'
  refine ⟨?_, scanMin_le_all h', pre, post, hL, hpre⟩
  rw [hL]
  exact List.mem_append.mpr (Or.inr (List.mem_cons_self _ _))

/-- C4 witness: a single skyline bin with one segment whose backend reports
every query feasible with top-`y` equal to the queried width; for item
2×3 the original-orientation query yields `y = 2`, the swapped one `y = 3`,
and the scan selects `(0, 2)`. -/
theorem skyline_best_fit_minimal_witness :
    (0, 2) ∈ skylinePlacements [⟨1, fun w _ _ => (true, w)⟩] ⟨2, 3⟩ ∧
    (∀ q ∈ skylinePlacements [⟨1, fun w _ _ => (true, w)⟩] ⟨2, 3⟩, (0, 2).2 ≤ q.2) ∧
    ∃ pre post, skylinePlacements [⟨1, fun w _ _ => (true, w)⟩] ⟨2, 3⟩ = pre ++ (0, 2) :: post ∧
      ∀ q ∈ pre, (0, 2).2 < q.2 :=
  skyline_best_fit_minimal [⟨1, fun w _ _ => (true, w)⟩] ⟨2, 3⟩ (0, 2) rfl

/-- C5: first-fit tries the open bins in creation order and the result is
fully characterized by the first accepting index: when bin `j` is the
first whose backend reports success, exactly the bins up to and including
`j` carry their insertion-attempt states and every later-created bin is
left untouched (the item is never placed in a later-created bin); when
every open bin refuses, every bin carries its failed-attempt state and
exactly one factory-fresh bin is appended, holding the item. -/
theorem first_fit_characterization {σ : Type} (B : Backend σ) (heuristic : String)
    (it : Item) (bins : List σ) :
    binFirstFit B heuristic it bins =
      match firstAcceptIdx B heuristic it bins with
      | some j => (bins.take (j + 1)).map (attemptState B heuristic it) ++ bins.drop (j + 1)
      | none =>
        bins.map (attemptState B heuristic it) ++ [attemptState B heuristic it B.newBin] := by
  rw [binFirstFit, binFirstFitLoop_eq]
  cases hidx : firstAcceptIdx B heuristic it bins with
  | none => rfl
  | some j => rfl

/-- C6: `add_items` appends the batch to the pending queue in call order
(the un-sorted queue is literally `old ++ batch`); with sorting enabled
the whole queue is stably re-sorted by descending `width*height`: for
every key value the sub-sequence of items with that area is unchanged
(equal-area items retain their relative submission order), the result is
sorted by descending area, and consequently zero-area items sort last
(once a zero-area item appears, everything after it has zero area). -/
theorem add_items_spec {σ : Type} (m : MState σ) (batch : List Item) :
    (addItems false m batch).items = m.items ++ batch ∧
    (addItems true m batch).items = sortDesc (m.items ++ batch) ∧
    (∀ k : Nat, (addItems true m batch).items.filter (fun it => sortKey it == k) =
        (m.items ++ batch).filter (fun it => sortKey it == k)) ∧
    (addItems true m batch).items.Pairwise (fun a b => sortKey b ≤ sortKey a) ∧
    (addItems true m batch).items.Pairwise (fun a b => sortKey a = 0 → sortKey b = 0) := by
  refine ⟨rfl, rfl, ?_, ?_, ?_⟩
  · intro k
    exact sortDesc_filter_key k (m.items ++ batch)
  · exact sortDesc_pairwise (m.items ++ batch)
  · refine (sortDesc_pairwise (m.items ++ batch)).imp ?_
    intro a b hba ha
    omega

/-- C7: the bin factory succeeds exactly on the four recognized algorithm
names and raises `ValueError('Error: No such Algorithm')` on every other
name; each recognized name yields a new empty bin of that variant wired
with the configured dimensions and variant-specific flags; and since the
factory runs inside `__init__`, constructing a manager reproduces exactly
the factory's error. -/
theorem bin_factory_spec (cfg : Config) :
    ((binFactory cfg).isOk = true ↔
      cfg.packAlgo ∈ ["guillotine", "shelf", "maximal_rectangle", "skyline"]) ∧
    (cfg.packAlgo ∉ ["guillotine", "shelf", "maximal_rectangle", "skyline"] →
      binFactory cfg = Except.error "Error: No such Algorithm") ∧
    (cfg.packAlgo = "guillotine" →
      binFactory cfg = Except.ok (PackBin.guillotine cfg.binWidth cfg.binHeight
        cfg.rotation cfg.rectangleMerge cfg.splitHeuristic)) ∧
    (cfg.packAlgo = "shelf" →
      binFactory cfg = Except.ok (PackBin.shelf cfg.binWidth cfg.binHeight
        cfg.rotation cfg.wastemap)) ∧
    (cfg.packAlgo = "maximal_rectangle" →
      binFactory cfg = Except.ok (PackBin.maximalRectangle cfg.binWidth cfg.binHeight
        cfg.rotation)) ∧
    (cfg.packAlgo = "skyline" →
      binFactory cfg = Except.ok (PackBin.skyline cfg.binWidth cfg.binHeight
        cfg.rotation)) ∧
    initManager cfg = Except.map mkMState (binFactory cfg) := by
  by_cases h1 : cfg.packAlgo = "guillotine"
  · simp [binFactory, initManager, h1, Except.isOk, Except.toBool, Except.map]
  · by_cases h2 : cfg.packAlgo = "shelf"
    · simp [binFactory, initManager, h1, h2, Except.isOk, Except.toBool, Except.map]
    · by_cases h3 : cfg.packAlgo = "maximal_rectangle"
      · simp [binFactory, initManager, h1, h2, h3, Except.isOk, Except.toBool, Except.map]
      · by_cases h4 : cfg.packAlgo = "skyline"
        · simp [binFactory, initManager, h1, h2, h3, h4, Except.isOk, Except.toBool,
            Except.map]
        · simp [binFactory, initManager, h1, h2, h3, h4, Except.isOk, Except.toBool,
            Except.map]

/-- C7 witness: the factory applied to a recognized name ("shelf") returns
the wired shelf bin, and applied to the unrecognized name "bogus" raises
the invalid-configuration error. -/
theorem bin_factory_spec_witness :
    binFactory cfgShelfEx = Except.ok (PackBin.shelf 4 4 false true) ∧
    binFactory cfgBadEx = Except.error "Error: No such Algorithm" :=
  ⟨(bin_factory_spec cfgShelfEx).2.2.2.1 rfl,
   (bin_factory_spec cfgBadEx).2.1 (by decide)⟩

/-- C8: a manager with bin 4×4, shelf algorithm, best-fit policy and
rotation disabled: submitting the single item 5×1 and executing raises the
oversize error before any placement attempt, whatever the open bins, the
backend's insert behaviour, and the factory's fresh bin are. -/
theorem shelf_oversize_scenario (ins : ShelfBin → Item → String → Bool × ShelfBin)
    (newB : ShelfBin) (bins : List ShelfBin) :
    executeShelfE 4 4 false "default" ins newB bins [⟨5, 1⟩] =
      Except.error "Error! item too big for bin" := by
  have hg : itemFitsGuard 4 4 false ⟨5, 1⟩ = false := by decide
  simp [executeShelfE, shelfBestFitE, hg]

/-- C9: `execute` leaves the pending-item queue untouched (items are not
removed after placement) and leaves `bin_count` untouched, and its effect
on the bin list is exactly the sequential once-per-item application of the
configured bin-selection policy, in queue order, with no re-ordering or
backtracking. -/
theorem execute_frame {σ : Type} (pol : List σ → Item → List σ) (m : MState σ) :
    (execute pol m).items = m.items ∧
    (execute pol m).binCount = m.binCount ∧
    (execute pol m).bins = applySeq pol m.items m.bins := by
  refine ⟨rfl, rfl, ?_⟩
  show m.items.foldl pol m.bins = applySeq pol m.items m.bins
  generalize m.bins = bins
  induction m.items generalizing bins with
  | nil => rfl
  | cons it rest ih => rw [List.foldl_cons, applySeq, ih]

/-- C10: `bin_count` is 0 at construction and no operation — `add_items`,
`execute`, or the bin-selection policies they invoke (which touch only the
bin list) — ever modifies it, so after any sequence of caller operations
it is still 0, regardless of how many bins were actually opened. -/
theorem bin_count_stays_zero {σ : Type} (sorting : Bool)
    (pol : List σ → Item → List σ) (b0 : σ) (ops : List MOp) :
    (runOps sorting pol (mkMState b0) ops).binCount = 0 := by
  have h : ∀ (ops : List MOp) (m : MState σ),
      (runOps sorting pol m ops).binCount = m.binCount := by
    intro ops
    induction ops with
    | nil => intro m; rfl
    | cons op rest ih =>
      intro m
      rw [runOps, ih]
      cases op <;> rfl
  rw [h]
  rfl
